import Mathlib

/-!
Verification of the `postgres-protocol-debug-tools` repository: a shallow
embedding, in Lean 4, of the PostgreSQL wire-protocol decoding and logging
code of `postgres-wire-proxy` (`protocol.rs`, `table_formatter.rs`,
`main.rs`) and of the diagnostic client `pg-client-inspect` (`main.rs`).

Bytes are modelled as `Nat` values (each `< 256` where it matters), byte
slices as `List Nat`, Rust `String`s as Lean `String`s, machine integers as
`Nat`/`Int` with explicit wrap-around where the source relies on it, and
`Instant`s as abstract `Nat` clock values.  Rust code paths that can panic
(out-of-bounds slicing) are modelled as `Option`/`Except` results where
`none`/`.error` marks the panic.
-/

namespace PgDebugTools

/-! ## Big-endian integer readers

The Rust code reads integers with `u16::from_be_bytes`, `u32::from_be_bytes`,
`i16::from_be_bytes`, `i32::from_be_bytes` on explicit 2- or 4-byte slices.
The readers below take the byte list starting at the relevant offset; the
callers always establish that enough bytes are present before reading.
-/

def u16be : List Nat → Nat
  | b0 :: b1 :: _ => b0 * 256 + b1
  | _ => 0

def u32be : List Nat → Nat
  | b0 :: b1 :: b2 :: b3 :: _ => ((b0 * 256 + b1) * 256 + b2) * 256 + b3
  | _ => 0

/-- Two's-complement interpretation of a width-`w` unsigned value. -/
def toSigned (w : Nat) (n : Nat) : Int :=
  if n < 2 ^ (w - 1) then (n : Int) else (n : Int) - 2 ^ w

def i16be (l : List Nat) : Int := toSigned 16 (u16be l)

def i32be (l : List Nat) : Int := toSigned 32 (u32be l)

/-! ## `table_formatter.rs` : `pad_or_truncate` and the table formatter -/

/-- Rust `"x".repeat(n)` on a string. -/
def strRepeat (s : String) (n : Nat) : String :=
  String.join (List.replicate n s)

/-- `table_formatter.rs::pad_or_truncate`: pad `s` with spaces to `width`
characters, or truncate (with `"..."` when `width ≥ 3`). -/
def pad_or_truncate (s : String) (width : Nat) : String :=
  let chars := s.data
  let char_count := chars.length
  if char_count ≤ width then
    s ++ String.mk (List.replicate (width - char_count) ' ')
  else if 3 ≤ width then
    String.mk (chars.take (width - 3)) ++ "..."
  else
    String.mk (chars.take width)

/-- `table_formatter.rs::FieldInfo`. -/
structure FieldInfo where
  name : String
  type_name : String
deriving DecidableEq

/-- `table_formatter.rs::TableFormatter` (the `terminal_width` field is
always `None` in the source and carried along unchanged). -/
structure TableFormatter where
  fields : List FieldInfo
  column_widths : List Nat
  header_printed : Bool
  terminal_width : Option Nat
deriving DecidableEq

/-- `TableFormatter::new`: fixed column width of 15. -/
def TableFormatter.new (fields : List FieldInfo) : TableFormatter :=
  { fields := fields
    column_widths := List.replicate fields.length 15
    header_printed := false
    terminal_width := none }

/-- `table_formatter.rs::FormattedParts`. -/
structure FormattedParts where
  data : String
  separator : String
deriving DecidableEq

/-- `TableFormatter::format_row`: cells padded/truncated to the column
widths (default 10 when a width is missing), joined with `│`; the separator
is `─`-runs joined with `┬`. -/
def format_row (values : List String) (widths : List Nat) : FormattedParts :=
  let cells := values.enum.map (fun p => pad_or_truncate p.2 (widths.getD p.1 10))
  { data := String.intercalate "│" cells
    separator := String.intercalate "┬" (widths.map (fun w => strRepeat "─" w)) }

/-- `TableFormatter::print_header`: emits top border, header row and mid
border once; returns the emitted log lines. -/
def TableFormatter.print_header (f : TableFormatter) (addr : String) :
    TableFormatter × List String :=
  if f.header_printed then (f, [])
  else
    let parts := format_row (f.fields.map (fun fi => fi.name)) f.column_widths
    ({ f with header_printed := true },
     ["[" ++ addr ++ "] ┌" ++ parts.separator ++ "┐",
      "[" ++ addr ++ "] │" ++ parts.data ++ "│",
      "[" ++ addr ++ "] ├" ++ parts.separator ++ "┤"])

/-- `TableFormatter::print_row`: ensures the header is printed, then emits
one data row. -/
def TableFormatter.print_row (f : TableFormatter) (values : List String)
    (addr : String) : TableFormatter × List String :=
  let hp := if f.header_printed then (f, []) else f.print_header addr
  let parts := format_row values hp.1.column_widths
  (hp.1, hp.2 ++ ["[" ++ addr ++ "] │" ++ parts.data ++ "│"])

/-- `TableFormatter::print_footer`: bottom border, only if the header was
printed. -/
def TableFormatter.print_footer (f : TableFormatter) (addr : String) :
    List String :=
  if f.header_printed then
    ["[" ++ addr ++ "] └" ++
      String.intercalate "┴" (f.column_widths.map (fun w => strRepeat "─" w)) ++ "┘"]
  else []

/-- `table_formatter.rs::TableState` (the `Mutex` interior mutability is
modelled by explicit state passing). -/
structure TableState where
  table_mode : Bool
  current_formatter : Option TableFormatter
deriving DecidableEq

def TableState.new (table_mode : Bool) : TableState :=
  { table_mode := table_mode, current_formatter := none }

def TableState.is_table_mode (t : TableState) : Bool := t.table_mode

/-- `TableState::set_row_description`: installs a fresh formatter when table
mode is on. -/
def TableState.set_row_description (t : TableState) (fields : List FieldInfo) :
    TableState :=
  if t.table_mode then { t with current_formatter := some (TableFormatter.new fields) }
  else t

/-- `TableState::print_data_row`: prints through the current formatter, if
any; returns emitted lines. -/
def TableState.print_data_row (t : TableState) (values : List String)
    (addr : String) : TableState × List String :=
  if t.table_mode then
    match t.current_formatter with
    | some f =>
        let r := f.print_row values addr
        ({ t with current_formatter := some r.1 }, r.2)
    | none => (t, [])
  else (t, [])

/-- `TableState::finish_result_set`: emits the footer of the current
formatter (if any) and clears it. -/
def TableState.finish_result_set (t : TableState) (addr : String) :
    TableState × List String :=
  if t.table_mode then
    let lines := match t.current_formatter with
      | some f => f.print_footer addr
      | none => []
    ({ t with current_formatter := none }, lines)
  else (t, [])

/-! ## `protocol.rs` : `ConnectionTiming`

`TimingState` holds the four optional `Instant` slots; an `Instant` is
modelled as a `Nat` clock value and `start.elapsed()` at clock `now` is
`now - start`.  The `Mutex` is modelled by explicit state passing. -/

structure TimingState where
  simple_query : Option Nat
  execute : Option Nat
  parse : Option Nat
  bind : Option Nat
deriving DecidableEq

def TimingState.default : TimingState :=
  { simple_query := none, execute := none, parse := none, bind := none }

def TimingState.mark_simple_query (ts : TimingState) (now : Nat) : TimingState :=
  { ts with simple_query := some now }

def TimingState.mark_execute (ts : TimingState) (now : Nat) : TimingState :=
  { ts with execute := some now }

def TimingState.mark_parse (ts : TimingState) (now : Nat) : TimingState :=
  { ts with parse := some now }

def TimingState.mark_bind (ts : TimingState) (now : Nat) : TimingState :=
  { ts with bind := some now }

/-- `ConnectionTiming::finish_simple_query`: `take()` the slot and map it to
the elapsed duration. -/
def TimingState.finish_simple_query (ts : TimingState) (now : Nat) :
    TimingState × Option Nat :=
  match ts.simple_query with
  | some start => ({ ts with simple_query := none }, some (now - start))
  | none => (ts, none)

def TimingState.finish_execute (ts : TimingState) (now : Nat) :
    TimingState × Option Nat :=
  match ts.execute with
  | some start => ({ ts with execute := none }, some (now - start))
  | none => (ts, none)

def TimingState.finish_parse (ts : TimingState) (now : Nat) :
    TimingState × Option Nat :=
  match ts.parse with
  | some start => ({ ts with parse := none }, some (now - start))
  | none => (ts, none)

def TimingState.finish_bind (ts : TimingState) (now : Nat) :
    TimingState × Option Nat :=
  match ts.bind with
  | some start => ({ ts with bind := none }, some (now - start))
  | none => (ts, none)

/-- The four timing kinds (`SimpleQuery`, `Parse`, `Bind`, `Execute`). -/
inductive TimingKind
  | simpleQuery
  | parse
  | bind
  | execute
deriving DecidableEq

/-- Dispatch to the per-kind `mark_*` method of the source. -/
def TimingState.mark (ts : TimingState) (k : TimingKind) (now : Nat) : TimingState :=
  match k with
  | .simpleQuery => ts.mark_simple_query now
  | .parse => ts.mark_parse now
  | .bind => ts.mark_bind now
  | .execute => ts.mark_execute now

/-- Dispatch to the per-kind `finish_*` method of the source. -/
def TimingState.finish (ts : TimingState) (k : TimingKind) (now : Nat) :
    TimingState × Option Nat :=
  match k with
  | .simpleQuery => ts.finish_simple_query now
  | .parse => ts.finish_parse now
  | .bind => ts.finish_bind now
  | .execute => ts.finish_execute now

/-- The value stored in the slot for kind `k`. -/
def TimingState.slot (ts : TimingState) (k : TimingKind) : Option Nat :=
  match k with
  | .simpleQuery => ts.simple_query
  | .parse => ts.parse
  | .bind => ts.bind
  | .execute => ts.execute

/-! ## UTF-8 encoding and decoding

The Rust code converts between byte slices and strings with
`str::as_bytes`, `std::str::from_utf8` (strict) and
`String::from_utf8_lossy`.  We model bytes of a Lean `String` by UTF-8
encoding its characters, strict validation by a full UTF-8 decoder, and the
lossy conversion by emitting `U+FFFD` for each maximal invalid subpart, as
Rust does. -/

def utf8EncodeChar (c : Char) : List Nat :=
  let n := c.toNat
  if n < 128 then [n]
  else if n < 2048 then [192 + n / 64, 128 + n % 64]
  else if n < 65536 then [224 + n / 4096, 128 + (n / 64) % 64, 128 + n % 64]
  else [240 + n / 262144, 128 + (n / 4096) % 64, 128 + (n / 64) % 64, 128 + n % 64]

/-- UTF-8 bytes of a string (Rust `str::as_bytes`). -/
def strBytes (s : String) : List Nat :=
  (s.data.map utf8EncodeChar).flatten

/-- Is `b` a UTF-8 continuation byte (`0x80..=0xBF`)? -/
def isCont (b : Nat) : Bool := 128 ≤ b && b ≤ 191

/-- Decode one UTF-8 scalar from the front of the list.  Returns
`(some c, n)` when a valid `n`-byte sequence encodes `c`, and `(none, n)`
when the front is invalid, where `n ≥ 1` is the length of the maximal valid
prefix of a sequence (the number of bytes Rust's lossy conversion replaces
with one `U+FFFD`). -/
def utf8DecodeOne : List Nat → Option Char × Nat
  | [] => (none, 1)
  | b0 :: rest =>
    if b0 < 128 then (some (Char.ofNat b0), 1)
    else if 194 ≤ b0 && b0 ≤ 223 then
      match rest with
      | b1 :: _ =>
        if isCont b1 then (some (Char.ofNat ((b0 - 192) * 64 + (b1 - 128))), 2)
        else (none, 1)
      | [] => (none, 1)
    else if 224 ≤ b0 && b0 ≤ 239 then
      let contOk : Nat → Bool := fun b1 =>
        if b0 = 224 then 160 ≤ b1 && b1 ≤ 191
        else if b0 = 237 then 128 ≤ b1 && b1 ≤ 159
        else isCont b1
      match rest with
      | b1 :: rest1 =>
        if contOk b1 then
          match rest1 with
          | b2 :: _ =>
            if isCont b2 then
              (some (Char.ofNat ((b0 - 224) * 4096 + (b1 - 128) * 64 + (b2 - 128))), 3)
            else (none, 2)
          | [] => (none, 2)
        else (none, 1)
      | [] => (none, 1)
    else if 240 ≤ b0 && b0 ≤ 244 then
      let contOk : Nat → Bool := fun b1 =>
        if b0 = 240 then 144 ≤ b1 && b1 ≤ 191
        else if b0 = 244 then 128 ≤ b1 && b1 ≤ 143
        else isCont b1
      match rest with
      | b1 :: rest1 =>
        if contOk b1 then
          match rest1 with
          | b2 :: rest2 =>
            if isCont b2 then
              match rest2 with
              | b3 :: _ =>
                if isCont b3 then
                  (some (Char.ofNat
                    ((b0 - 240) * 262144 + (b1 - 128) * 4096 + (b2 - 128) * 64 + (b3 - 128))), 4)
                else (none, 3)
              | [] => (none, 3)
            else (none, 2)
          | [] => (none, 2)
        else (none, 1)
      | [] => (none, 1)
    else (none, 1)

/-- Strict UTF-8 decoding (Rust `std::str::from_utf8`), with structural
fuel.  `utf8DecodeOne` always consumes at least one byte, so after
consuming `n` bytes from `b0 :: rest` the remainder is `rest.drop (n - 1)`,
and fuel `≥` the list length never runs out. -/
def utf8DecodeStrictF : Nat → List Nat → Option (List Char)
  | _, [] => some []
  | 0, _ :: _ => none
  | fuel + 1, b0 :: rest =>
    match utf8DecodeOne (b0 :: rest) with
    | (some c, n) =>
      match utf8DecodeStrictF fuel (rest.drop (n - 1)) with
      | some cs => some (c :: cs)
      | none => none
    | (none, _) => none

def utf8DecodeStrict (l : List Nat) : Option (List Char) :=
  utf8DecodeStrictF l.length l

/-- Lossy UTF-8 decoding (Rust `String::from_utf8_lossy`): each maximal
invalid subpart becomes one `U+FFFD`. -/
def utf8LossyCharsF : Nat → List Nat → List Char
  | _, [] => []
  | 0, _ :: _ => []
  | fuel + 1, b0 :: rest =>
    match utf8DecodeOne (b0 :: rest) with
    | (some c, n) => c :: utf8LossyCharsF fuel (rest.drop (n - 1))
    | (none, n) => Char.ofNat 65533 :: utf8LossyCharsF fuel (rest.drop (n - 1))

def utf8LossyChars (l : List Nat) : List Char :=
  utf8LossyCharsF l.length l

/-- Rust `String::from_utf8_lossy(..).to_string()`. -/
def utf8Lossy (l : List Nat) : String :=
  String.mk (utf8LossyChars l)

/-! ## `protocol.rs` : ErrorResponse / NoticeResponse decoding -/

/-- The field-code → label table of `parse_error_response`. -/
def error_field_name (field_type : Nat) : String :=
  if field_type = 83 then "Severity"          -- 'S'
  else if field_type = 86 then "Severity"     -- 'V'
  else if field_type = 67 then "Code"         -- 'C'
  else if field_type = 77 then "Message"      -- 'M'
  else if field_type = 68 then "Detail"       -- 'D'
  else if field_type = 72 then "Hint"         -- 'H'
  else if field_type = 80 then "Position"     -- 'P'
  else if field_type = 112 then "Internal position" -- 'p'
  else if field_type = 113 then "Internal query"    -- 'q'
  else if field_type = 87 then "Where"        -- 'W'
  else if field_type = 115 then "Schema"      -- 's'
  else if field_type = 116 then "Table"       -- 't'
  else if field_type = 99 then "Column"       -- 'c'
  else if field_type = 100 then "Data type"   -- 'd'
  else if field_type = 110 then "Constraint"  -- 'n'
  else if field_type = 70 then "File"         -- 'F'
  else if field_type = 76 then "Line"         -- 'L'
  else if field_type = 82 then "Routine"      -- 'R'
  else "Unknown"

/-- The scanning loop of `parse_error_response`: read `(code, value)` pairs
until a `0` code byte or the end of the body (structural fuel `≥` the list
length never runs out). -/
def parseErrorFieldsF : Nat → List Nat → List (Nat × List Nat)
  | _, [] => []
  | 0, _ :: _ => []
  | fuel + 1, b :: rest =>
    if b = 0 then []
    else
      let value := rest.takeWhile (fun x => x ≠ 0)
      (b, value) :: parseErrorFieldsF fuel ((rest.drop value.length).drop 1)

def parseErrorFields (l : List Nat) : List (Nat × List Nat) :=
  parseErrorFieldsF l.length l

/-- `protocol.rs::parse_error_response`: label each field and join with
`", "`; `None` when no field was read. -/
def parse_error_response (data : List Nat) : Option String :=
  let parts := (parseErrorFields data).map
    (fun p => error_field_name p.1 ++ ": " ++ utf8Lossy p.2)
  if parts.isEmpty then none
  else some (String.intercalate ", " parts)

/-! ## `protocol.rs` : type OID table, RowDescription, DataRow -/

/-- `protocol.rs::get_pg_type_name`. -/
def get_pg_type_name (oid : Nat) : String :=
  if oid = 16 then "bool" else if oid = 17 then "bytea"
  else if oid = 18 then "char" else if oid = 19 then "name"
  else if oid = 20 then "int8" else if oid = 21 then "int2"
  else if oid = 23 then "int4" else if oid = 25 then "text"
  else if oid = 26 then "oid" else if oid = 114 then "json"
  else if oid = 142 then "xml" else if oid = 700 then "float4"
  else if oid = 701 then "float8" else if oid = 1000 then "bool[]"
  else if oid = 1001 then "bytea[]" else if oid = 1002 then "char[]"
  else if oid = 1003 then "name[]" else if oid = 1005 then "int2[]"
  else if oid = 1007 then "int4[]" else if oid = 1009 then "text[]"
  else if oid = 1014 then "char[]" else if oid = 1015 then "varchar[]"
  else if oid = 1016 then "int8[]" else if oid = 1021 then "float4[]"
  else if oid = 1022 then "float8[]" else if oid = 1042 then "bpchar"
  else if oid = 1043 then "varchar" else if oid = 1082 then "date"
  else if oid = 1083 then "time" else if oid = 1114 then "timestamp"
  else if oid = 1184 then "timestamptz" else if oid = 1186 then "interval"
  else if oid = 1266 then "timetz" else if oid = 1560 then "bit"
  else if oid = 1562 then "varbit" else if oid = 1700 then "numeric"
  else if oid = 2950 then "uuid" else if oid = 3802 then "jsonb"
  else "unknown"

/-- `protocol.rs::RowDescriptionField`. -/
structure RowDescriptionField where
  field_info : FieldInfo
  description : String
deriving DecidableEq

/-- The per-field loop of `parse_row_description`, iterating `n` more
fields with the read cursor at byte offset `i` of `data`.  A field name is
the bytes up to the next NUL (or the end); the cursor then skips the
terminator, and the loop breaks when fewer than 18 bytes remain for the
fixed-size part. -/
def parseRowDescFields (data : List Nat) : Nat → Nat → List RowDescriptionField
  | 0, _ => []
  | n + 1, i =>
    let field_name := (data.drop i).takeWhile (fun x => x ≠ 0)
    let i := i + field_name.length + 1
    if data.length < i + 18 then []
    else
      let type_oid := u32be (data.drop (i + 6))
      let type_size := i16be (data.drop (i + 10))
      let type_mod := i32be (data.drop (i + 12))
      let format_code := u16be (data.drop (i + 16))
      let format_str :=
        if format_code = 0 then "text"
        else if format_code = 1 then "binary"
        else "unknown"
      let type_name := get_pg_type_name type_oid
      let name_str := utf8Lossy field_name
      let description :=
        "name='" ++ name_str ++ "', type=" ++ type_name ++ " (OID=" ++
        toString type_oid ++ "), size=" ++ toString type_size ++
        ", typemod=" ++ toString type_mod ++ ", format=" ++ format_str
      { field_info := { name := name_str, type_name := type_name }
        description := description } :: parseRowDescFields data n (i + 18)

/-- `protocol.rs::parse_row_description`: `None` for a body shorter than
2 bytes or when no field was decoded. -/
def parse_row_description (data : List Nat) : Option (List RowDescriptionField) :=
  if data.length < 2 then none
  else
    let field_count := u16be data
    let fields := parseRowDescFields data field_count 2
    if fields.isEmpty then none else some fields

/-- Lowercase hex digit. -/
def hexDigit (n : Nat) : Char :=
  if n < 10 then Char.ofNat (48 + n) else Char.ofNat (87 + n)

/-- Lowercase two-digit hex of one byte (Rust `format!("{:02x}", b)`). -/
def hexByte (b : Nat) : String :=
  String.mk [hexDigit (b / 16 % 16), hexDigit (b % 16)]

/-- Render one DataRow column value as `parse_data_row` does: UTF-8 text is
quoted (truncated at byte 100 when longer than 100 bytes), other bytes are
shown as hex (at most 32 bytes).  `.error ()` marks the Rust panic in
`&s[..100]` when byte index 100 is not a character boundary. -/
def formatDataValue (value_bytes : List Nat) : Except Unit String :=
  match utf8DecodeStrict value_bytes with
  | some chars =>
    if 100 < value_bytes.length then
      -- `&s[..100]` panics unless byte 100 starts a new character
      if isCont (value_bytes.getD 100 0) then .error ()
      else
        match utf8DecodeStrict (value_bytes.take 100) with
        | some prefixChars =>
            .ok ("'" ++ String.mk prefixChars ++ "...' (" ++
              toString value_bytes.length ++ " bytes)")
        | none => .error ()
    else .ok ("'" ++ String.mk chars ++ "'")
  | none =>
    let shown := value_bytes.take 32
    let hex := String.intercalate " " (shown.map hexByte)
    if 32 < value_bytes.length then
      .ok ("<binary: " ++ hex ++ " ...> (" ++ toString value_bytes.length ++ " bytes)")
    else
      .ok ("<binary: " ++ hex ++ ">")

/-- The per-column loop of `parse_data_row`: each column is a 4-byte signed
length (`-1` ⇒ NULL, other negatives skipped) followed by that many raw
bytes; the loop breaks when the buffer is too short. -/
def parseDataRowValues (data : List Nat) : Nat → Nat → Except Unit (List String)
  | 0, _ => .ok []
  | n + 1, i =>
    if data.length < i + 4 then .ok []
    else
      let length := i32be (data.drop i)
      let i := i + 4
      if length = -1 then
        match parseDataRowValues data n i with
        | .ok vs => .ok ("NULL" :: vs)
        | .error e => .error e
      else if 0 ≤ length then
        let len := length.toNat
        if data.length < i + len then .ok []
        else
          match formatDataValue ((data.drop i).take len) with
          | .ok v =>
            match parseDataRowValues data n (i + len) with
            | .ok vs => .ok (v :: vs)
            | .error e => .error e
          | .error e => .error e
      else
        parseDataRowValues data n i

/-- `protocol.rs::parse_data_row`: `None` for a short body or when no value
was decoded; `.error ()` when the Rust code would panic. -/
def parse_data_row (data : List Nat) : Except Unit (Option (List String)) :=
  if data.length < 2 then .ok none
  else
    let field_count := u16be data
    match parseDataRowValues data field_count 2 with
    | .ok values => .ok (if values.isEmpty then none else some values)
    | .error e => .error e

/-! ## `protocol.rs` : Bind message -/

/-- `protocol.rs::read_cstring`: bytes up to the next NUL, failing when the
cursor is past the end or no terminator exists. -/
def read_cstring (data : List Nat) (i : Nat) : Option (List Nat × Nat) :=
  if data.length ≤ i then none
  else
    let value := (data.drop i).takeWhile (fun x => x ≠ 0)
    let j := i + value.length
    if data.length ≤ j then none
    else some (value, j + 1)

/-- `protocol.rs::format_identifier`. -/
def format_identifier (bytes : List Nat) : String :=
  let name := utf8Lossy bytes
  if name = "" then "(unnamed)" else name

/-- `protocol.rs::format_format`. -/
def format_format (code : Nat) : String :=
  if code = 0 then "text" else if code = 1 then "binary" else "unknown"

/-- `protocol.rs::describe_format_codes`. -/
def describe_format_codes (label : String) (count : Nat) (codes : List Nat) : String :=
  match count with
  | 0 => label ++ "=text (all)"
  | 1 => label ++ "=" ++ format_format (codes.headD 0) ++ " (all)"
  | _ =>
    label ++ "=[" ++ String.intercalate ", " (codes.map format_format) ++ "]"

/-- The format-code reading loops of `parse_bind_message`: `n` big-endian
`u16` codes starting at offset `i`; returns the codes and the cursor after
them, failing when the buffer runs out. -/
def readFormatCodes (data : List Nat) : Nat → Nat → Option (List Nat × Nat)
  | i, 0 => some ([], i)
  | i, n + 1 =>
    if data.length < i + 2 then none
    else
      match readFormatCodes data (i + 2) n with
      | some (l, j) => some (u16be (data.drop i) :: l, j)
      | none => none

/-- The parameter-value skipping loop of `parse_bind_message`: each value is
a 4-byte signed length (negative ⇒ no bytes follow) plus that many bytes. -/
def skipBindParams (data : List Nat) : Nat → Nat → Option Nat
  | i, 0 => some i
  | i, n + 1 =>
    if data.length < i + 4 then none
    else
      let value_len := i32be (data.drop i)
      let i := i + 4
      if value_len < 0 then skipBindParams data i n
      else
        let vl := value_len.toNat
        if data.length < i + vl then none
        else skipBindParams data (i + vl) n

/-- `protocol.rs::parse_bind_message`: decode portal, statement, format
codes and parameter count, and render the one-line summary. -/
def parse_bind_message (data : List Nat) : Option String :=
  match read_cstring data 0 with
  | none => none
  | some (portal_name, i) =>
    match read_cstring data i with
    | none => none
    | some (stmt_name, i) =>
      if data.length < i + 2 then none
      else
        let param_format_count := u16be (data.drop i)
        match readFormatCodes data (i + 2) param_format_count with
        | none => none
        | some (param_formats, i) =>
          if data.length < i + 2 then none
          else
            let param_count := u16be (data.drop i)
            match skipBindParams data (i + 2) param_count with
            | none => none
            | some i =>
              if data.length < i + 2 then none
              else
                let result_format_count := u16be (data.drop i)
                match readFormatCodes data (i + 2) result_format_count with
                | none => none
                | some (result_formats, _) =>
                  some ("Portal='" ++ format_identifier portal_name ++
                    "', Statement='" ++ format_identifier stmt_name ++
                    "', Parameters=" ++ toString param_count ++ ", " ++
                    describe_format_codes "ParamFormats" param_format_count param_formats ++
                    ", " ++
                    describe_format_codes "ResultFormats" result_format_count result_formats)

/-! ## `protocol.rs` : the frame loop of `parse_message`

`parse_message` walks the buffer frame by frame: a frame is a type byte, a
4-byte big-endian length (which counts itself but not the type byte), and
`length - 4` body bytes.  The loop stops on an incomplete frame and leaves
the remainder (logged as a partial message only when it is shorter than 5
bytes).  For a complete frame the source slices `&buf[5..length + 1]`;
when `length < 4` that Rust range has `start > end` and the slice PANICS —
modelled as `none`. -/

/-- A framed message: type byte and body bytes. -/
abbrev Frame := Nat × List Nat

/-- The frame loop of `parse_message`, with structural fuel (each iteration
consumes at least 5 bytes, so fuel `≥` the buffer length never runs out).
Returns the decoded frames and the undecoded remainder, or `none` when the
body slice `&buf[5..length + 1]` would panic (declared length < 4). -/
def parseLoopF : Nat → List Nat → Option (List Frame × List Nat)
  | 0, buf => some ([], buf)
  | fuel + 1, buf =>
    if 5 ≤ buf.length then
      let msg_type := buf.headD 0
      let length := u32be (buf.drop 1)
      if buf.length < length + 1 then some ([], buf)
      else if length + 1 < 5 then none
      else
        let msg_data := (buf.drop 5).take (length + 1 - 5)
        match parseLoopF fuel (buf.drop (length + 1)) with
        | none => none
        | some (fs, leftover) => some ((msg_type, msg_data) :: fs, leftover)
    else some ([], buf)

def parseLoop (buf : List Nat) : Option (List Frame × List Nat) :=
  parseLoopF buf.length buf

/-- The sequence of frames decoded from one buffer (panic ⇒ no frames, for
streams known to be panic-free). -/
def framesOf (buf : List Nat) : Option (List Frame) :=
  match parseLoop buf with
  | some (fs, _) => some fs
  | none => none

/-- The read-loop of `run_proxy`'s pumps in `main.rs`: each read chunk is
passed to `parse_message` on its own (`buf.clear()` runs before every
read, so nothing is carried over between chunks). -/
def pumpFrames : List (List Nat) → Option (List Frame)
  | [] => some []
  | chunk :: rest =>
    match parseLoop chunk, pumpFrames rest with
    | some (fs, _), some fs' => some (fs ++ fs')
    | _, _ => none

/-! ## `protocol.rs` : the state effect of `parse_server_message`

`parse_server_message` receives a message type byte and body, an optional
`ConnectionTiming` and the shared `ClientState` (table state), and logs the
message.  We model its effect on the shared state and the table-formatter
lines it emits; `duration` is the elapsed value included in the completion
log line when a timing slot was taken (`format_duration` of it is a
floating-point rendering and left abstract).  `.error` again marks a Rust
panic (reachable through `parse_data_row`). -/

structure ServerEffect where
  timings : Option TimingState
  table : TableState
  tableLines : List String
  duration : Option Nat
deriving DecidableEq

deriving instance DecidableEq for Except

/-- Effect of one server→client message on the shared state
(`parse_server_message`).  Branches that only log are identity on the
state. -/
def parse_server_message_eff (msg_type : Nat) (data : List Nat) (addr : String)
    (timings : Option TimingState) (now : Nat) (tbl : TableState) :
    Except Unit ServerEffect :=
  let keep : ServerEffect := ⟨timings, tbl, [], none⟩
  if msg_type = 84 then        -- 'T' RowDescription
    if 2 ≤ data.length then
      match parse_row_description data with
      | some fields =>
        if tbl.is_table_mode then
          .ok ⟨timings, tbl.set_row_description (fields.map (fun f => f.field_info)), [], none⟩
        else .ok keep
      | none => .ok keep
    else .ok keep
  else if msg_type = 68 then   -- 'D' DataRow
    if 2 ≤ data.length then
      match parse_data_row data with
      | .error e => .error e
      | .ok none => .ok keep
      | .ok (some values) =>
        if tbl.is_table_mode then
          let r := tbl.print_data_row values addr
          .ok ⟨timings, r.1, r.2, none⟩
        else .ok keep
    else .ok keep
  else if msg_type = 67 then   -- 'C' CommandComplete
    let tf := if tbl.is_table_mode then tbl.finish_result_set addr else (tbl, [])
    match timings with
    | some ts =>
      match ts.finish_simple_query now with
      | (ts', some d) => .ok ⟨some ts', tf.1, tf.2, some d⟩
      | (ts', none) =>
        match ts'.finish_execute now with
        | (ts'', some d) => .ok ⟨some ts'', tf.1, tf.2, some d⟩
        | (ts'', none) => .ok ⟨some ts'', tf.1, tf.2, none⟩
    | none => .ok ⟨none, tf.1, tf.2, none⟩
  else if msg_type = 49 then   -- '1' ParseComplete
    match timings with
    | some ts =>
      let r := ts.finish_parse now
      .ok ⟨some r.1, tbl, [], r.2⟩
    | none => .ok keep
  else if msg_type = 50 then   -- '2' BindComplete
    match timings with
    | some ts =>
      let r := ts.finish_bind now
      .ok ⟨some r.1, tbl, [], r.2⟩
    | none => .ok keep
  else
    -- 'R','K','Z','S','E','N','3','n','s','t','I','d','c','G','H','W' and
    -- unknown types only log; no state change, no table output
    .ok keep

/-- Effect of one client→server message on the timing state
(`parse_client_message`): `Q`/`P`/`B`/`E` mark their slot, everything else
only logs. -/
def parse_client_message_eff (msg_type : Nat) (timings : Option TimingState)
    (now : Nat) : Option TimingState :=
  match timings with
  | none => none
  | some ts =>
    if msg_type = 81 then some (ts.mark_simple_query now)       -- 'Q'
    else if msg_type = 80 then some (ts.mark_parse now)         -- 'P'
    else if msg_type = 66 then some (ts.mark_bind now)          -- 'B'
    else if msg_type = 69 then some (ts.mark_execute now)       -- 'E'
    else some ts

/-! ## MD5 (RFC 1321) and `pg-client-inspect::md5_password_response`

The diagnostic client computes the PostgreSQL MD5 password response with
the `md5` crate.  MD5 is embedded here directly: 32-bit words are `Nat`
values kept `< 2^32` by explicit reduction. -/

def m32 (x : Nat) : Nat := x % 4294967296

/-- 32-bit left rotation: high and low parts occupy disjoint bit ranges, so
their sum is the bitwise or of the shifted halves. -/
def rotl32 (x s : Nat) : Nat :=
  m32 (x * 2 ^ s) + x / 2 ^ (32 - s)

/-- 32-bit bitwise complement of a word `< 2^32`. -/
def not32 (x : Nat) : Nat := 4294967295 - x

/-- The 64 MD5 sine-derived constants `K[i] = ⌊2^32·|sin(i+1)|⌋`. -/
def md5K : List Nat :=
  [3614090360, 3905402710, 606105819, 3250441966, 4118548399, 1200080426,
   2821735955, 4249261313, 1770035416, 2336552879, 4294925233, 2304563134,
   1804603682, 4254626195, 2792965006, 1236535329, 4129170786, 3225465664,
   643717713, 3921069994, 3593408605, 38016083, 3634488961, 3889429448,
   568446438, 3275163606, 4107603335, 1163531501, 2850285829, 4243563512,
   1735328473, 2368359562, 4294588738, 2272392833, 1839030562, 4259657740,
   2763975236, 1272893353, 4139469664, 3200236656, 681279174, 3936430074,
   3572445317, 76029189, 3654602809, 3873151461, 530742520, 3299628645,
   4096336452, 1126891415, 2878612391, 4237533241, 1700485571, 2399980690,
   4293915773, 2240044497, 1873313359, 4264355552, 2734768916, 1309151649,
   4149444226, 3174756917, 718787259, 3951481745]

/-- The 64 per-round left-rotation amounts. -/
def md5S : List Nat :=
  [7, 12, 17, 22, 7, 12, 17, 22, 7, 12, 17, 22, 7, 12, 17, 22,
   5, 9, 14, 20, 5, 9, 14, 20, 5, 9, 14, 20, 5, 9, 14, 20,
   4, 11, 16, 23, 4, 11, 16, 23, 4, 11, 16, 23, 4, 11, 16, 23,
   6, 10, 15, 21, 6, 10, 15, 21, 6, 10, 15, 21, 6, 10, 15, 21]

/-- One MD5 round: mix `(a,b,c,d)` with message word `M[g]` for round `i`. -/
def md5Round (M : List Nat) (st : Nat × Nat × Nat × Nat) (i : Nat) :
    Nat × Nat × Nat × Nat :=
  let a := st.1
  let b := st.2.1
  let c := st.2.2.1
  let d := st.2.2.2
  let fg : Nat × Nat :=
    if i < 16 then (Nat.lor (Nat.land b c) (Nat.land (not32 b) d), i)
    else if i < 32 then (Nat.lor (Nat.land d b) (Nat.land (not32 d) c), (5 * i + 1) % 16)
    else if i < 48 then (Nat.xor b (Nat.xor c d), (3 * i + 5) % 16)
    else (Nat.xor c (Nat.lor b (not32 d)), (7 * i) % 16)
  let tmp := m32 (a + fg.1 + md5K.getD i 0 + M.getD fg.2 0)
  (d, m32 (b + rotl32 tmp (md5S.getD i 0)), b, c)

/-- Process one 64-byte block (given as 16 little-endian words) into the
running state. -/
def md5Block (st : Nat × Nat × Nat × Nat) (M : List Nat) : Nat × Nat × Nat × Nat :=
  let r := (List.range 64).foldl (md5Round M) st
  (m32 (st.1 + r.1), m32 (st.2.1 + r.2.1), m32 (st.2.2.1 + r.2.2.1),
   m32 (st.2.2.2 + r.2.2.2))

/-- Split a byte list into the 16 little-endian 32-bit words of each
64-byte block. -/
def md5Words (block : List Nat) : List Nat :=
  (List.range 16).map (fun j =>
    block.getD (4 * j) 0 + 256 * block.getD (4 * j + 1) 0 +
    65536 * block.getD (4 * j + 2) 0 + 16777216 * block.getD (4 * j + 3) 0)

def md5ChunksF : Nat → List Nat → List (List Nat)
  | _, [] => []
  | 0, _ :: _ => []
  | fuel + 1, b :: rest => (b :: rest).take 64 :: md5ChunksF fuel (rest.drop 63)

/-- Split a padded message into its 64-byte blocks (structural fuel `≥` the
length never runs out). -/
def md5Chunks (l : List Nat) : List (List Nat) :=
  md5ChunksF l.length l

/-- MD5 padding: `0x80`, zeros to 56 mod 64, then the 64-bit little-endian
bit length. -/
def md5Pad (msg : List Nat) : List Nat :=
  let len := msg.length
  let zeros := (120 - (len + 1) % 64) % 64
  let bitLen := (len * 8) % 18446744073709551616
  msg ++ [128] ++ List.replicate zeros 0 ++
    (List.range 8).map (fun j => bitLen / 256 ^ j % 256)

/-- Serialize one 32-bit word little-endian. -/
def word2bytes (w : Nat) : List Nat :=
  [w % 256, w / 256 % 256, w / 65536 % 256, w / 16777216 % 256]

/-- The MD5 digest (16 bytes) of a byte list. -/
def md5 (msg : List Nat) : List Nat :=
  let st0 : Nat × Nat × Nat × Nat := (1732584193, 4023233417, 2562383102, 271733878)
  let st := (md5Chunks (md5Pad msg)).foldl (fun st blk => md5Block st (md5Words blk)) st0
  word2bytes st.1 ++ word2bytes st.2.1 ++ word2bytes st.2.2.1 ++ word2bytes st.2.2.2

/-- Lowercase hex rendering of a byte list (Rust `format!("{:x}", digest)`). -/
def hexLower (bytes : List Nat) : String :=
  String.join (bytes.map hexByte)

/-- `pg-client-inspect::md5_password_response`:
`"md5" ++ hex(md5(hex(md5(password ++ user)) ++ salt))`. -/
def md5_password_response (user password : String) (salt : List Nat) : String :=
  let inner := strBytes password ++ strBytes user
  let first_hash := hexLower (md5 inner)
  let outer := strBytes first_hash ++ salt
  "md5" ++ hexLower (md5 outer)

/-- Modelled from the spec sentence for `AuthenticationMD5Password`: send
`PasswordMessage("md5" || hex(md5(hex(md5(password || user)) || salt)))`.
Used to compare the source's computation against the spec's formula. -/
def md5_password_response_spec (user password : String) (salt : List Nat) : String :=
  "md5" ++ hexLower (md5 (strBytes (hexLower (md5 (strBytes password ++ strBytes user))) ++ salt))

/-! ## Helper lemmas about the frame loop -/

theorem u32be_append (l l' : List Nat) (h : 4 ≤ l.length) :
    u32be (l ++ l') = u32be l := by
  match l with
  | b0 :: b1 :: b2 :: b3 :: t => simp [u32be]
  | [] | [_] | [_, _] | [_, _, _] => simp at h

theorem headD_append (l l' : List Nat) (d : Nat) (h : l ≠ []) :
    (l ++ l').headD d = l.headD d := by
  cases l with
  | nil => exact absurd rfl h
  | cons a t => simp

/-- Fuel irrelevance for the frame loop: any fuel `≥` the buffer length
computes the same result. -/
theorem parseLoopF_fuel (f1 : Nat) : ∀ (f2 : Nat) (buf : List Nat),
    buf.length ≤ f1 → buf.length ≤ f2 → parseLoopF f1 buf = parseLoopF f2 buf := by
  induction f1 with
  | zero =>
    intro f2 buf h1 _
    have : buf = [] := List.length_eq_zero.mp (Nat.le_zero.mp h1)
    subst this
    cases f2 <;> simp [parseLoopF]
  | succ f1 ih =>
    intro f2 buf h1 h2
    cases f2 with
    | zero =>
      have : buf = [] := List.length_eq_zero.mp (Nat.le_zero.mp h2)
      subst this
      simp [parseLoopF]
    | succ f2 =>
      simp only [parseLoopF]
      by_cases h5 : 5 ≤ buf.length
      · rw [if_pos h5, if_pos h5]
        by_cases hc : buf.length < u32be (buf.drop 1) + 1
        · rw [if_pos hc, if_pos hc]
        · rw [if_neg hc, if_neg hc]
          by_cases hp : u32be (buf.drop 1) + 1 < 5
          · rw [if_pos hp, if_pos hp]
          · rw [if_neg hp, if_neg hp]
            have hrec : parseLoopF f1 (buf.drop (u32be (buf.drop 1) + 1)) =
                parseLoopF f2 (buf.drop (u32be (buf.drop 1) + 1)) := by
              apply ih
              · simp only [List.length_drop]; omega
              · simp only [List.length_drop]; omega
            rw [hrec]
      · rw [if_neg h5, if_neg h5]

/-- One-step unfolding of `parseLoop` (the fuel is invisible at this level). -/
theorem parseLoop_unfold (buf : List Nat) :
    parseLoop buf =
      if 5 ≤ buf.length then
        if buf.length < u32be (buf.drop 1) + 1 then some ([], buf)
        else if u32be (buf.drop 1) + 1 < 5 then none
        else
          match parseLoop (buf.drop (u32be (buf.drop 1) + 1)) with
          | none => none
          | some (fs, leftover) =>
              some ((buf.headD 0, (buf.drop 5).take (u32be (buf.drop 1) + 1 - 5)) :: fs,
                leftover)
      else some ([], buf) := by
  cases hn : buf.length with
  | zero =>
    have hbuf : buf = [] := List.length_eq_zero.mp hn
    subst hbuf
    simp [parseLoop, parseLoopF]
  | succ m =>
    have hstep : parseLoop buf = parseLoopF (m + 1) buf := by
      rw [parseLoop, hn]
    rw [hstep]
    simp only [parseLoopF]
    have hfuel : parseLoopF m (buf.drop (u32be (buf.drop 1) + 1)) =
        parseLoop (buf.drop (u32be (buf.drop 1) + 1)) :=
      parseLoopF_fuel m _ _ (by simp only [List.length_drop]; omega) (Nat.le_refl _)
    rw [hfuel, ← hn]

/-- Frame-boundary concatenation (fuel-indexed induction): a buffer that
parses into whole frames with no remainder composes with any
continuation. -/
theorem parseLoop_append_aux (n : Nat) : ∀ (a b : List Nat) (fs : List Frame),
    a.length ≤ n → parseLoop a = some (fs, []) →
    parseLoop (a ++ b) = (parseLoop b).map (fun p => (fs ++ p.1, p.2)) := by
  induction n with
  | zero =>
    intro a b fs hlen hp
    have ha : a = [] := List.length_eq_zero.mp (Nat.le_zero.mp hlen)
    subst ha
    have hfs : fs = [] := by
      simpa [parseLoop, parseLoopF] using hp.symm
    subst hfs
    rcases hb : parseLoop b with _ | ⟨fsb, lb⟩ <;> simp [hb]
  | succ n ih =>
    intro a b fs hlen hp
    by_cases h5 : 5 ≤ a.length
    · rw [parseLoop_unfold, if_pos h5] at hp
      by_cases hc : a.length < u32be (a.drop 1) + 1
      · rw [if_pos hc] at hp
        have ha : a = [] := (Prod.mk.inj (Option.some.inj hp)).2
        subst ha; simp at h5
      · rw [if_neg hc] at hp
        by_cases hpanic : u32be (a.drop 1) + 1 < 5
        · rw [if_pos hpanic] at hp; exact absurd hp (by simp)
        · rw [if_neg hpanic] at hp
          rcases hrec : parseLoop (a.drop (u32be (a.drop 1) + 1)) with _ | ⟨fs', leftover⟩
          · rw [hrec] at hp; simp at hp
          · rw [hrec] at hp
            simp only [Option.some.injEq, Prod.mk.injEq] at hp
            obtain ⟨hfs, hleft⟩ := hp
            subst hleft
            rw [parseLoop_unfold]
            have hlen5 : 5 ≤ (a ++ b).length := by
              simp only [List.length_append]; omega
            rw [if_pos hlen5]
            have hdrop1 : (a ++ b).drop 1 = a.drop 1 ++ b :=
              List.drop_append_of_le_length (by omega)
            have hL : u32be ((a ++ b).drop 1) = u32be (a.drop 1) := by
              rw [hdrop1]
              exact u32be_append _ _ (by simp only [List.length_drop]; omega)
            rw [hL]
            rw [if_neg (by simp only [List.length_append]; omega :
              ¬ (a ++ b).length < u32be (a.drop 1) + 1)]
            rw [if_neg hpanic]
            have hdrop5 : ((a ++ b).drop 5).take (u32be (a.drop 1) + 1 - 5) =
                (a.drop 5).take (u32be (a.drop 1) + 1 - 5) := by
              rw [List.drop_append_of_le_length (by omega),
                List.take_append_of_le_length (by simp only [List.length_drop]; omega)]
            have hdropL : (a ++ b).drop (u32be (a.drop 1) + 1) =
                a.drop (u32be (a.drop 1) + 1) ++ b :=
              List.drop_append_of_le_length (by omega)
            rw [hdropL]
            have ihrec := ih (a.drop (u32be (a.drop 1) + 1)) b fs'
              (by simp only [List.length_drop]; omega) hrec
            rw [ihrec]
            have hhead : (a ++ b).headD 0 = a.headD 0 :=
              headD_append _ _ _ (by intro h; subst h; simp at h5)
            rcases hb : parseLoop b with _ | ⟨fsb, lb⟩
            · rfl
            · simp only [Option.map_some']
              rw [hhead, hdrop5, ← hfs, List.cons_append]
    · rw [parseLoop_unfold, if_neg h5] at hp
      have hpair := Prod.mk.inj (Option.some.inj hp)
      have ha : a = [] := hpair.2
      subst ha
      have hfs : fs = [] := hpair.1.symm
      subst hfs
      rcases hb : parseLoop b with _ | ⟨fsb, lb⟩ <;> simp [hb]

theorem parseLoop_append (a b : List Nat) (fs : List Frame)
    (hp : parseLoop a = some (fs, [])) :
    parseLoop (a ++ b) = (parseLoop b).map (fun p => (fs ++ p.1, p.2)) :=
  parseLoop_append_aux a.length a b fs (Nat.le_refl _) hp

/-! ## Claim theorems -/

/-- C1.  The claim states that `parse_message` never panics on any input
byte slice.  The code contradicts it: a typed frame header whose declared
length is below 4 (here the 5-byte buffer `51 00 00 00 00`, a `'Q'` frame
with declared length 0) makes the source compute the body slice
`&buf[5..length + 1] = &buf[5..1]`, whose start exceeds its end, and the
Rust slice operation panics.  The frame-loop model therefore returns
`none` (panic) instead of decoding the frame as `Unknown` or reporting a
partial message. -/
theorem parse_message_panics_on_declared_length_below_four :
    parseLoop [81, 0, 0, 0, 0] = none := by decide

/-- C2 counterexample.  The single valid `Sync` frame `53 00 00 00 04`
split after four bytes: decoding the concatenation yields the frame once,
but pushing the two chunks through the pump's successive `parse_message`
calls decodes it zero times (the pump clears its buffer before every read
and never carries a partial tail). -/
theorem split_frame_never_decoded :
    (∃ fs, parseLoop ([[83, 0, 0, 0], [4]] : List (List Nat)).flatten = some (fs, [])) ∧
    pumpFrames [[83, 0, 0, 0], [4]] ≠
      framesOf ([[83, 0, 0, 0], [4]] : List (List Nat)).flatten :=
  ⟨⟨[(83, [])], by decide⟩, by decide⟩

/-- C2 amended.  Streaming equivalence holds only for partitions whose
chunk boundaries fall on frame boundaries: when every read chunk consists
of whole frames with no remainder, the pump's chunk-by-chunk decoding
equals decoding the whole concatenation; a frame split across two reads is
dropped from decoding (decoded zero times, not once). -/
theorem streaming_equivalence_on_frame_boundaries (chunks : List (List Nat))
    (h : ∀ c ∈ chunks, ∃ fs, parseLoop c = some (fs, [])) :
    pumpFrames chunks = framesOf chunks.flatten := by
  induction chunks with
  | nil => simp [pumpFrames, framesOf, parseLoop, parseLoopF]
  | cons c rest ih =>
    obtain ⟨fsc, hc⟩ := h c (by simp)
    have hrest : ∀ c' ∈ rest, ∃ fs, parseLoop c' = some (fs, []) :=
      fun c' hmem => h c' (by simp [hmem])
    have ihr := ih hrest
    have happ := parseLoop_append c rest.flatten fsc hc
    rcases hrf : parseLoop rest.flatten with _ | ⟨fsr, lr⟩
    · have hfr : framesOf rest.flatten = none := by
        simp [framesOf, hrf]
      rw [hfr] at ihr
      simp only [pumpFrames, hc, ihr, framesOf, List.flatten_cons, happ, hrf]
      rfl
    · have hfr : framesOf rest.flatten = some fsr := by
        simp [framesOf, hrf]
      rw [hfr] at ihr
      simp only [pumpFrames, hc, ihr, framesOf, List.flatten_cons, happ, hrf,
        Option.map_some']

/-- C2 witness: two chunks, each one whole frame (`'Q'` with body `01` and
`'Z'` with body `'I'`), decode chunk-by-chunk exactly as in one read. -/
theorem streaming_equivalence_on_frame_boundaries_witness :
    pumpFrames [[81, 0, 0, 0, 5, 1], [90, 0, 0, 0, 5, 73]] =
      framesOf ([[81, 0, 0, 0, 5, 1], [90, 0, 0, 0, 5, 73]] : List (List Nat)).flatten :=
  streaming_equivalence_on_frame_boundaries _ (by
    intro c hmem
    rcases List.mem_cons.mp hmem with rfl | hmem'
    · exact ⟨[(81, [1])], by decide⟩
    · rcases List.mem_cons.mp hmem' with rfl | hmem''
      · exact ⟨[(90, [73])], by decide⟩
      · simp at hmem'')

/-- C3 counterexample.  An `ErrorResponse` (`'E'`, byte 69) processed in
table mode while a formatter with an emitted header is active leaves the
formatter installed and emits no footer line — although the formatter's
footer would be nonempty — contradicting the claim that the footer is
emitted and the formatter cleared. -/
theorem error_response_keeps_formatter :
    parse_server_message_eff 69 [83, 69, 82, 82, 0, 0] "c" none 0
        ⟨true, some ⟨[⟨"id", "int4"⟩], [15], true, none⟩⟩ =
      .ok ⟨none, ⟨true, some ⟨[⟨"id", "int4"⟩], [15], true, none⟩⟩, [], none⟩ ∧
    (⟨[⟨"id", "int4"⟩], [15], true, none⟩ : TableFormatter).print_footer "c" ≠ [] := by
  decide

/-- C3 amended.  In table mode with an active formatter, only
`CommandComplete` (`'C'`, 67) emits the formatter's footer (nonempty
exactly when its header was emitted) and clears the formatter;
`ErrorResponse` (`'E'`, 69) and `EmptyQueryResponse` (`'I'`, 73) leave the
formatter installed unchanged and emit nothing. -/
theorem result_set_finish_only_on_command_complete
    (data : List Nat) (addr : String) (now : Nat) (timings : Option TimingState)
    (tbl : TableState) (f : TableFormatter)
    (hm : tbl.table_mode = true) (hf : tbl.current_formatter = some f) :
    (∃ t d, parse_server_message_eff 67 data addr timings now tbl =
        .ok ⟨t, { tbl with current_formatter := none }, f.print_footer addr, d⟩) ∧
    (f.header_printed = true → f.print_footer addr ≠ []) ∧
    (f.header_printed = false → f.print_footer addr = []) ∧
    parse_server_message_eff 69 data addr timings now tbl = .ok ⟨timings, tbl, [], none⟩ ∧
    parse_server_message_eff 73 data addr timings now tbl = .ok ⟨timings, tbl, [], none⟩ := by
  have hfin : tbl.finish_result_set addr =
      ({ tbl with current_formatter := none }, f.print_footer addr) := by
    simp [TableState.finish_result_set, hm, hf]
  refine ⟨?_, ?_, ?_, ?_, ?_⟩
  · match timings with
    | none =>
      refine ⟨none, none, ?_⟩
      simp only [parse_server_message_eff, TableState.is_table_mode, hm]
      norm_num
      rw [hfin]
      simp [hm]
    | some ts =>
      rcases hsq : ts.finish_simple_query now with ⟨ts1, od⟩
      rcases od with _ | d1
      · rcases hex : ts1.finish_execute now with ⟨ts2, od2⟩
        rcases od2 with _ | d2
        · refine ⟨some ts2, none, ?_⟩
          simp only [parse_server_message_eff, TableState.is_table_mode, hm]
          norm_num
          rw [hfin, hsq]
          simp [hex, hm]
        · refine ⟨some ts2, some d2, ?_⟩
          simp only [parse_server_message_eff, TableState.is_table_mode, hm]
          norm_num
          rw [hfin, hsq]
          simp [hex, hm]
      · refine ⟨some ts1, some d1, ?_⟩
        simp only [parse_server_message_eff, TableState.is_table_mode, hm]
        norm_num
        rw [hfin, hsq]
        simp [hm]
  · intro hh
    simp [TableFormatter.print_footer, hh]
  · intro hh
    simp [TableFormatter.print_footer, hh]
  · simp [parse_server_message_eff]
  · simp [parse_server_message_eff]

/-- C3 amended witness at a concrete table state. -/
theorem result_set_finish_only_on_command_complete_witness :
    (∃ t d, parse_server_message_eff 67 [84, 0] "c" none 0
        ⟨true, some ⟨[⟨"id", "int4"⟩], [15], true, none⟩⟩ =
      .ok ⟨t, { (⟨true, some ⟨[⟨"id", "int4"⟩], [15], true, none⟩⟩ : TableState) with
                  current_formatter := none },
        (⟨[⟨"id", "int4"⟩], [15], true, none⟩ : TableFormatter).print_footer "c", d⟩) ∧
    parse_server_message_eff 69 [84, 0] "c" none 0
        ⟨true, some ⟨[⟨"id", "int4"⟩], [15], true, none⟩⟩ =
      .ok ⟨none, ⟨true, some ⟨[⟨"id", "int4"⟩], [15], true, none⟩⟩, [], none⟩ := by
  have h := result_set_finish_only_on_command_complete [84, 0] "c" 0 none
    ⟨true, some ⟨[⟨"id", "int4"⟩], [15], true, none⟩⟩
    ⟨[⟨"id", "int4"⟩], [15], true, none⟩ rfl rfl
  exact ⟨h.1, h.2.2.2.1⟩

/-- C4 counterexample.  The decoder labels the `'C'` (byte 67) field of an
`ErrorResponse` as `"Code"`, not `"SQLSTATE"` as the claim states. -/
theorem error_code_field_not_sqlstate :
    error_field_name 67 = "Code" ∧ error_field_name 67 ≠ "SQLSTATE" ∧
    parse_error_response [67, 50, 0, 0] = some "Code: 2" := by decide

/-- C4 amended.  The decoder labels `ErrorResponse`/`NoticeResponse`
fields by code exactly as claimed except that `'C'` is labeled `"Code"`
(not `"SQLSTATE"`): `S`/`V` → Severity, `M` → Message, `D` → Detail,
`H` → Hint, `P` → Position, `p` → Internal position, `q` → Internal query,
`W` → Where, `s` → Schema, `t` → Table, `c` → Column, `d` → Data type,
`n` → Constraint, `F` → File, `L` → Line, `R` → Routine, and every other
code is labeled Unknown; `parse_error_response` applies this labelling to
each decoded field. -/
theorem error_field_labels (b : Nat)
    (h : b ∉ ([83, 86, 67, 77, 68, 72, 80, 112, 113, 87, 115, 116, 99, 100,
               110, 70, 76, 82] : List Nat)) :
    (∀ p ∈ ([(83, "Severity"), (86, "Severity"), (67, "Code"),
             (77, "Message"), (68, "Detail"), (72, "Hint"),
             (80, "Position"), (112, "Internal position"),
             (113, "Internal query"), (87, "Where"), (115, "Schema"),
             (116, "Table"), (99, "Column"), (100, "Data type"),
             (110, "Constraint"), (70, "File"), (76, "Line"),
             (82, "Routine")] : List (Nat × String)),
      error_field_name p.1 = p.2) ∧
    error_field_name b = "Unknown" ∧
    parse_error_response [67, 50, 0, 77, 104, 105, 0, 0] =
      some "Code: 2, Message: hi" := by
  simp only [List.mem_cons, List.not_mem_nil, or_false, not_or] at h
  obtain ⟨h83, h86, h67, h77, h68, h72, h80, h112, h113, h87, h115, h116,
    h99, h100, h110, h70, h76, h82⟩ := h
  refine ⟨by decide, ?_, by decide⟩
  simp only [error_field_name, if_neg h83, if_neg h86, if_neg h67, if_neg h77,
    if_neg h68, if_neg h72, if_neg h80, if_neg h112, if_neg h113, if_neg h87,
    if_neg h115, if_neg h116, if_neg h99, if_neg h100, if_neg h110,
    if_neg h70, if_neg h76, if_neg h82]

/-- C4 amended witness at the unmapped code `'Z'` (90). -/
theorem error_field_labels_witness :
    error_field_name 90 = "Unknown" ∧ error_field_name 67 = "Code" :=
  have h := error_field_labels 90 (by decide)
  ⟨h.2.1, h.1 (67, "Code") (by decide)⟩

/-- C5.  When `CommandComplete` (67) is processed with a timing tracker
present, the SimpleQuery slot is tried first and taken if occupied (the
Execute slot — and every other slot — is left unchanged); the Execute slot
is taken only when SimpleQuery is empty; when both are empty the
completion carries no duration.  `ParseComplete` (49) and `BindComplete`
(50) take exactly the Parse resp. Bind slot, and report no duration when
that slot is empty. -/
theorem command_complete_timing_take_once
    (data : List Nat) (addr : String) (now : Nat) (ts : TimingState)
    (tbl : TableState) (hmode : tbl.table_mode = false) :
    (∀ t, ts.simple_query = some t →
      parse_server_message_eff 67 data addr (some ts) now tbl =
        .ok ⟨some { ts with simple_query := none }, tbl, [], some (now - t)⟩) ∧
    (∀ t, ts.simple_query = none → ts.execute = some t →
      parse_server_message_eff 67 data addr (some ts) now tbl =
        .ok ⟨some { ts with execute := none }, tbl, [], some (now - t)⟩) ∧
    (ts.simple_query = none → ts.execute = none →
      parse_server_message_eff 67 data addr (some ts) now tbl =
        .ok ⟨some ts, tbl, [], none⟩) ∧
    (∀ t, ts.parse = some t →
      parse_server_message_eff 49 data addr (some ts) now tbl =
        .ok ⟨some { ts with parse := none }, tbl, [], some (now - t)⟩) ∧
    (ts.parse = none →
      parse_server_message_eff 49 data addr (some ts) now tbl =
        .ok ⟨some ts, tbl, [], none⟩) ∧
    (∀ t, ts.bind = some t →
      parse_server_message_eff 50 data addr (some ts) now tbl =
        .ok ⟨some { ts with bind := none }, tbl, [], some (now - t)⟩) ∧
    (ts.bind = none →
      parse_server_message_eff 50 data addr (some ts) now tbl =
        .ok ⟨some ts, tbl, [], none⟩) := by
  rcases ts with ⟨sq, ex, pa, bi⟩
  refine ⟨?_, ?_, ?_, ?_, ?_, ?_, ?_⟩ <;>
    · intros
      simp_all [parse_server_message_eff, TableState.is_table_mode,
        TimingState.finish_simple_query, TimingState.finish_execute,
        TimingState.finish_parse, TimingState.finish_bind]

/-- C5 witness: a tracker with SimpleQuery and Execute both marked — the
`CommandComplete` takes SimpleQuery and leaves Execute in place. -/
theorem command_complete_timing_take_once_witness :
    parse_server_message_eff 67 [] "c" (some ⟨some 3, some 4, none, none⟩) 10
        ⟨false, none⟩ =
      .ok ⟨some ⟨none, some 4, none, none⟩, ⟨false, none⟩, [], some 7⟩ :=
  (command_complete_timing_take_once [] "c" 10 ⟨some 3, some 4, none, none⟩
    ⟨false, none⟩ rfl).1 3 rfl

/-- C6.  For every timing kind `k`: `mark` overwrites the slot (and leaves
other slots unchanged); `finish` on an occupied slot returns the elapsed
time and empties exactly that slot; `finish` on an empty slot returns
`none` and changes nothing — hence after `mark k` then `finish k`, a
second `finish k` returns `none`. -/
theorem timing_mark_finish (ts : TimingState) (k k' : TimingKind)
    (t now now2 : Nat) (hk : k' ≠ k) :
    (ts.mark k t).slot k = some t ∧
    (ts.mark k t).slot k' = ts.slot k' ∧
    (∀ u, ts.slot k = some u →
      (ts.finish k now).2 = some (now - u) ∧
      ((ts.finish k now).1).slot k = none ∧
      ((ts.finish k now).1).slot k' = ts.slot k') ∧
    (ts.slot k = none → ts.finish k now = (ts, none)) ∧
    (((ts.mark k t).finish k now).1.finish k now2).2 = none := by
  rcases ts with ⟨sq, ex, pa, bi⟩
  cases k <;> cases k' <;> (try exact absurd rfl hk) <;>
    rcases sq with _ | u1 <;> rcases ex with _ | u2 <;>
    rcases pa with _ | u3 <;> rcases bi with _ | u4 <;>
    simp [TimingState.mark, TimingState.finish, TimingState.slot,
      TimingState.mark_simple_query, TimingState.mark_execute,
      TimingState.mark_parse, TimingState.mark_bind,
      TimingState.finish_simple_query, TimingState.finish_execute,
      TimingState.finish_parse, TimingState.finish_bind]

/-- C6 witness: mark-finish-finish on the Parse slot of an empty tracker,
second finish absent. -/
theorem timing_mark_finish_witness :
    ((TimingState.default.mark .parse 2).slot .parse = some 2) ∧
    (((TimingState.default.mark .parse 2).finish .parse 5).1.finish .parse 9).2 = none :=
  have h := timing_mark_finish TimingState.default .parse .bind 2 5 9 (by decide)
  ⟨h.1, h.2.2.2.2⟩

/-- C7.  The Bind summary renders a format-code list with zero codes as
`"text (all)"`, with exactly one code as that code's name followed by
`" (all)"`, and with two or more codes as the per-column bracketed list;
the S4 body (portal `""`, statement `"_p1"`, 0 param formats, 0 params,
1 result format = binary) yields a summary containing
`ParamFormats=text (all)` and `ResultFormats=binary (all)`. -/
theorem bind_format_code_rendering (label : String) (c n : Nat)
    (codes : List Nat) (h2 : 2 ≤ n) :
    describe_format_codes label 0 codes = label ++ "=text (all)" ∧
    describe_format_codes label 1 [c] =
      label ++ "=" ++ format_format c ++ " (all)" ∧
    describe_format_codes label n codes =
      label ++ "=[" ++ String.intercalate ", " (codes.map format_format) ++ "]" ∧
    parse_bind_message [0, 95, 112, 49, 0, 0, 0, 0, 0, 0, 1, 0, 1] =
      some ("Portal='(unnamed)', Statement='_p1', Parameters=0, " ++
        "ParamFormats=text (all), ResultFormats=binary (all)") := by
  refine ⟨rfl, rfl, ?_, by decide⟩
  match n, h2 with
  | m + 2, _ => rfl

/-- C7 witness at the S5 format-code lists (one param format, two result
formats). -/
theorem bind_format_code_rendering_witness :
    describe_format_codes "ResultFormats" 2 [0, 1] =
      "ResultFormats" ++ "=[" ++
        String.intercalate ", " (([0, 1] : List Nat).map format_format) ++ "]" :=
  (bind_format_code_rendering "ResultFormats" 1 2 [0, 1] (by decide)).2.2.1

/-- C8.  `pad_or_truncate` right-pads `s` with spaces to `w` characters
when `s` has at most `w` characters, truncates to the first `w - 3`
characters plus `"..."` when `w ≥ 3`, and otherwise emits the first `w`
characters — and for every `s` and every `w ≥ 3` the rendered cell has
exactly `w` characters. -/
theorem pad_or_truncate_rendering (s : String) (w : Nat) :
    (s.length ≤ w →
      pad_or_truncate s w = s ++ String.mk (List.replicate (w - s.length) ' ')) ∧
    (w < s.length → 3 ≤ w →
      pad_or_truncate s w = String.mk (s.data.take (w - 3)) ++ "...") ∧
    (w < s.length → w < 3 → pad_or_truncate s w = String.mk (s.data.take w)) ∧
    (3 ≤ w → (pad_or_truncate s w).length = w) := by
  have hlen : s.data.length = s.length := rfl
  refine ⟨?_, ?_, ?_, ?_⟩
  · intro h
    simp [pad_or_truncate, hlen, h]
  · intro h h3
    rw [pad_or_truncate]
    simp only [hlen]
    rw [if_neg (by omega), if_pos h3]
  · intro h h3
    rw [pad_or_truncate]
    simp only [hlen]
    rw [if_neg (by omega), if_neg (by omega)]
  · intro h3
    rw [pad_or_truncate]
    simp only [hlen]
    by_cases h : s.length ≤ w
    · rw [if_pos h]
      simp [String.length_append, h]
    · rw [if_neg h, if_pos h3]
      simp only [String.length_append]
      have htake : (String.mk (s.data.take (w - 3))).length = w - 3 := by
        show (s.data.take (w - 3)).length = w - 3
        rw [List.length_take, hlen]
        omega
      rw [htake]
      have hdots : ("..." : String).length = 3 := rfl
      omega

/-- C8 witness: a five-character string at widths 10 and 4. -/
theorem pad_or_truncate_rendering_witness :
    pad_or_truncate "hello" 10 =
      "hello" ++ String.mk (List.replicate 5 ' ') ∧
    pad_or_truncate "hello" 4 = String.mk ("hello".data.take 1) ++ "..." ∧
    (pad_or_truncate "hello" 4).length = 4 :=
  ⟨(pad_or_truncate_rendering "hello" 10).1 (by decide),
   (pad_or_truncate_rendering "hello" 4).2.1 (by decide) (by decide),
   (pad_or_truncate_rendering "hello" 4).2.2.2 (by decide)⟩

set_option maxRecDepth 40000 in
/-- C9.  `md5_password_response` computes exactly the spec formula
`"md5" ++ hex(md5(hex(md5(password ++ user)) ++ salt))` for every user,
password and salt, and on the S3 vector (`user`, `password`, salt
`12 34 56 78`) it equals `md5d6f407104ca5ba8553d598fed7df90e0`. -/
theorem md5_password_response_correct :
    (∀ (user password : String) (salt : List Nat),
      md5_password_response user password salt =
        md5_password_response_spec user password salt) ∧
    md5_password_response "user" "password" [18, 52, 86, 120] =
      "md5d6f407104ca5ba8553d598fed7df90e0" :=
  ⟨fun _ _ _ => rfl, by decide⟩

/-- C10.  When `parse_row_description` returns `None` (in particular for a
body declaring zero fields, or too short to hold its first field), the
`'T'` handler changes nothing: no formatter is installed and a leftover
formatter survives; a subsequent `DataRow` in table mode is then rendered
through the old formatter — here printing the previous result set's
column header `old` before the new row. -/
theorem row_description_failure_preserves_formatter
    (data : List Nat) (addr : String) (now : Nat) (timings : Option TimingState)
    (tbl : TableState) (h : parse_row_description data = none) :
    parse_server_message_eff 84 data addr timings now tbl =
      .ok ⟨timings, tbl, [], none⟩ ∧
    parse_row_description [0, 0] = none ∧
    parse_row_description [0, 1, 65, 0] = none ∧
    parse_server_message_eff 68 [0, 1, 0, 0, 0, 1, 120] "c" none 0
        ⟨true, some (TableFormatter.new [⟨"old", "text"⟩])⟩ =
      .ok ⟨none,
        ⟨true, some { TableFormatter.new [⟨"old", "text"⟩] with header_printed := true }⟩,
        ["[c] ┌───────────────┐", "[c] │old            │",
         "[c] ├───────────────┤", "[c] │'x'            │"], none⟩ := by
  refine ⟨?_, by decide, by decide, by decide⟩
  simp [parse_server_message_eff, h]

/-- C10 witness at the zero-field body. -/
theorem row_description_failure_preserves_formatter_witness :
    parse_server_message_eff 84 [0, 0] "c" none 0
        ⟨true, some (TableFormatter.new [⟨"old", "text"⟩])⟩ =
      .ok ⟨none, ⟨true, some (TableFormatter.new [⟨"old", "text"⟩])⟩, [], none⟩ :=
  (row_description_failure_preserves_formatter [0, 0] "c" 0 none
    ⟨true, some (TableFormatter.new [⟨"old", "text"⟩])⟩ (by decide)).1

end PgDebugTools
